import Mathlib

/-!
Shallow embedding of the `blackjack-engine` Rust crate
(src/card.rs, src/hand.rs, src/shoe.rs, src/player.rs, src/game.rs).

Machine floats (`f64` bets and bankrolls) are modelled as rationals; the
operations the code performs on them (add, subtract, multiply by 2 and 2.5,
compare) are the only ones used.  `Vec` indexing that can panic in Rust is
modelled with `Option` (a `none` result of a game operation models a panic);
`get_mut`-style silent failures are modelled as identity, exactly as the
source behaves.
-/

namespace Blackjack

/-- Rank of a playing card (src/card.rs, `enum Rank`). -/
inductive Rank
  | Two | Three | Four | Five | Six | Seven | Eight
  | Nine | Ten | Jack | Queen | King | Ace
deriving DecidableEq, Repr, Fintype

/-- Suit of a playing card (src/card.rs, `enum Suit`). -/
inductive Suit
  | Clubs
  | Diamonds
  | Hearts
  | Spades
deriving DecidableEq, Repr, Fintype

/-- A playing card (src/card.rs, `struct Card`). -/
structure Card where
  rank : Rank
  suit : Suit
deriving DecidableEq, Repr

/-- `Rank::value` (src/card.rs lines 28-41): possible numeric values of a rank. -/
def Rank.value : Rank → List ℕ
  | Rank.Ace => [1, 11]
  | Rank.Two => [2]
  | Rank.Three => [3]
  | Rank.Four => [4]
  | Rank.Five => [5]
  | Rank.Six => [6]
  | Rank.Seven => [7]
  | Rank.Eight => [8]
  | Rank.Nine => [9]
  | Rank.Ten => [10]
  | Rank.Jack => [10]
  | Rank.Queen => [10]
  | Rank.King => [10]

/-- Outcome of a hand (src/hand.rs, `enum HandOutcome`). -/
inductive HandOutcome
  | Win
  | Loss
  | Push
  | Blackjack
deriving DecidableEq, Repr

/-- A player's hand (src/hand.rs, `struct Hand`). -/
structure Hand where
  bet : ℚ
  cards : List Card
  outcome : Option HandOutcome
deriving DecidableEq, Repr

/-- `Hand::new` (src/hand.rs). -/
def Hand.new : Hand := ⟨0, [], none⟩

/-- `Hand::with_card_and_bet` (src/hand.rs). -/
def Hand.with_card_and_bet (card : Card) (bet : ℚ) : Hand := ⟨bet, [card], none⟩

/-- `Hand::add_card` (src/hand.rs): push a card at the end. -/
def Hand.add_card (h : Hand) (card : Card) : Hand :=
  { h with cards := h.cards ++ [card] }

/-- `Hand::can_split` (src/hand.rs lines 150-152): exactly two cards of equal rank. -/
def Hand.can_split (h : Hand) : Bool :=
  match h.cards with
  | [c0, c1] => c0.rank == c1.rank
  | _ => false

/-- The fold at the start of `Hand::possible_values` (src/hand.rs lines 183-188):
sum of the non-Ace card values paired with the number of Aces. -/
def nonAceFold (cards : List Card) : ℕ × ℕ :=
  cards.foldl
    (fun p card =>
      match card.rank with
      | Rank.Ace => (p.1, p.2 + 1)
      | r => (p.1 + r.value.headD 0, p.2))
    (0, 0)

/-- The Ace-branching loop of `Hand::possible_values` (src/hand.rs lines 193-200):
each Ace splits every running total into total+1 and total+11. -/
def branchAces : ℕ → List ℕ → List ℕ
  | 0, totals => totals
  | k + 1, totals => branchAces k (totals.flatMap (fun t => [t + 1, t + 11]))

/-- Rust `Vec::dedup`: drop consecutive duplicate elements. -/
def rustDedup : List ℕ → List ℕ
  | [] => []
  | [a] => [a]
  | a :: b :: rest =>
      if a = b then rustDedup (b :: rest) else a :: rustDedup (b :: rest)

/-- `Hand::possible_values` (src/hand.rs lines 182-205): branch every Ace into
1 or 11, sort ascending (`sort_unstable`), then `dedup`. -/
def Hand.possible_values (h : Hand) : List ℕ :=
  let p := nonAceFold h.cards
  rustDedup (List.insertionSort (· ≤ ·) (branchAces p.2 [p.1]))

/-- `Hand::best_value` (src/hand.rs lines 221-228): scan the sorted values from
the top for one that is ≤ 21; fall back to the first (smallest) value. -/
def Hand.best_value (h : Hand) : ℕ :=
  let values := h.possible_values
  (values.reverse.find? (fun v => decide (v ≤ 21))).getD (values.headD 0)

/-- `Hand::is_natural_blackjack` (src/hand.rs lines 242-244). -/
def Hand.is_natural_blackjack (h : Hand) : Bool :=
  h.cards.length == 2 && h.best_value == 21

/-- `Hand::is_blackjack` (src/hand.rs lines 261-263). -/
def Hand.is_blackjack (h : Hand) : Bool :=
  h.best_value == 21

/-- `Hand::is_busted` (src/hand.rs lines 276-278): every possible value exceeds 21. -/
def Hand.is_busted (h : Hand) : Bool :=
  h.possible_values.all (fun v => decide (21 < v))

/-- The 13 ranks in `EnumIter` declaration order (src/card.rs). -/
def allRanks : List Rank :=
  [Rank.Two, Rank.Three, Rank.Four, Rank.Five, Rank.Six, Rank.Seven, Rank.Eight,
   Rank.Nine, Rank.Ten, Rank.Jack, Rank.Queen, Rank.King, Rank.Ace]

/-- The 4 suits in `EnumIter` declaration order (src/card.rs). -/
def allSuits : List Suit :=
  [Suit.Clubs, Suit.Diamonds, Suit.Hearts, Suit.Spades]

/-- One 52-card deck in the order the loop body of `Shoe::new` generates it:
rank-major, suit-minor (src/shoe.rs lines 42-50). -/
def fullDeck : List Card :=
  allRanks.flatMap (fun r => allSuits.map (fun s => ⟨r, s⟩))

/-- The `for _ in 0..num_decks` loop of `Shoe::new`: the deck repeated `n` times. -/
def deckRepeat : ℕ → List Card
  | 0 => []
  | n + 1 => deckRepeat n ++ fullDeck

/-- A dealer's shoe (src/shoe.rs, `struct Shoe`). -/
structure Shoe where
  cards : List Card
  discarded : List Card
  number_of_decks : ℕ
deriving DecidableEq, Repr

/-- `Shoe::new` (src/shoe.rs lines 37-57). -/
def Shoe.new (num_decks : ℕ) : Shoe :=
  ⟨deckRepeat num_decks, [], num_decks⟩

/-- `Shoe::draw_card` (src/shoe.rs lines 104-108): `Vec::pop` from the end of
`cards`, push the popped card onto `discarded`. -/
def Shoe.draw_card (s : Shoe) : Option Card × Shoe :=
  match s.cards.getLast? with
  | none => (none, s)
  | some c =>
      (some c, { s with cards := s.cards.dropLast, discarded := s.discarded ++ [c] })

/-- `Shoe::ensure_cards_for_players` (src/shoe.rs lines 131-147).  The random
shuffle of the replacement shoe is modelled by an arbitrary `shuffle` parameter. -/
def Shoe.ensure_cards_for_players (s : Shoe) (shuffle : List Card → List Card)
    (num_players : ℕ) : Shoe :=
  let min_cards_needed := (num_players + 1) * 2 * 2
  if s.cards.length < min_cards_needed then
    { cards := shuffle (Shoe.new s.number_of_decks).cards
      discarded := []
      number_of_decks := s.number_of_decks }
  else s

/-- A player (src/player.rs, `struct Player`). -/
structure Player where
  hands : List Hand
  bank_roll : ℚ
deriving DecidableEq, Repr

/-- `Player::new` (src/player.rs lines 31-36). -/
def Player.new : Player := ⟨[Hand.new], 10000⟩

/-- `Player::add_card_to_hand` (src/player.rs lines 76-80): silently does
nothing when the index is out of bounds (`get_mut` returns `None`). -/
def Player.add_card_to_hand (p : Player) (card : Card) (hand_index : ℕ) : Player :=
  match p.hands.get? hand_index with
  | none => p
  | some h => { p with hands := p.hands.set hand_index (h.add_card card) }

/-- `Player::reset_hands` (src/player.rs lines 99-101). -/
def Player.reset_hands (p : Player) : Player :=
  { p with hands := [Hand.new] }

/-- The mutation `self.player.hands[i].outcome = Option::from(o)`; the game only
performs it at indices already known to be in bounds. -/
def Player.set_outcome (p : Player) (i : ℕ) (o : HandOutcome) : Player :=
  match p.hands.get? i with
  | none => p
  | some h => { p with hands := p.hands.set i { h with outcome := some o } }

/-- Game phases with their payloads (src/game.rs, `enum GameState`). -/
inductive GameState
  | WaitingForBet (player_bankroll : ℚ)
  | WaitingToDeal (player_bet : ℚ) (player_bankroll : ℚ)
  | PlayerTurn (dealer_hand : Hand) (player_hands : List Hand)
      (player_bankroll : ℚ) (active_hand_index : ℕ)
  | DealerTurn (dealer_hand : Hand) (player_hands : List Hand) (player_bankroll : ℚ)
  | RoundComplete (dealer_hand : Hand) (player_hands : List Hand) (player_bankroll : ℚ)
deriving DecidableEq, Repr

/-- Player actions (src/game.rs, `enum GameAction`). -/
inductive GameAction
  | Hit
  | Stand
  | Double
  | Split
deriving DecidableEq, Repr

/-- Game configuration (src/game_settings.rs, `struct GameSettings`). -/
structure GameSettings where
  player_name : String
  deck_count : ℕ
deriving DecidableEq, Repr

/-- A game instance (src/game.rs, `struct Game`). -/
structure Game where
  settings : GameSettings
  shoe : Shoe
  player : Player
  dealer : Player
  state : GameState
deriving DecidableEq, Repr

/-- `Game::new` (src/game.rs lines 42-52). -/
def Game.new (settings : GameSettings) : Game :=
  { settings := settings
    shoe := Shoe.new settings.deck_count
    player := Player.new
    dealer := Player.new
    state := GameState.WaitingForBet Player.new.bank_roll }

/-- `Game::accept_user_bet` (src/game.rs lines 73-81): reject (state unchanged)
when the bet exceeds the bankroll, else debit and move to `WaitingToDeal`.
`none` models the `hands[0]` index panic on an empty hand list. -/
def Game.accept_user_bet (g : Game) (bet : ℚ) : Option Game :=
  if g.player.bank_roll < bet then some g
  else
    match g.player.hands.get? 0 with
    | none => none
    | some h0 =>
        let bank := g.player.bank_roll - bet
        let player : Player :=
          { hands := g.player.hands.set 0 { h0 with bet := bet }, bank_roll := bank }
        some { g with player := player, state := GameState.WaitingToDeal bet bank }

/-- `if let Some(card) = shoe.draw_card() { who.add_card_to_hand(card, i) }`. -/
def drawInto (shoe : Shoe) (p : Player) (i : ℕ) : Shoe × Player :=
  match shoe.draw_card with
  | (none, s1) => (s1, p)
  | (some c, s1) => (s1, p.add_card_to_hand c i)

/-- `Game::deal_initial_cards` (src/game.rs lines 90-144): replenish the shoe if
needed, deal alternately player, dealer, player, dealer, then resolve natural
blackjacks or enter `PlayerTurn` at index 0. -/
def Game.deal_initial_cards (shuffle : List Card → List Card) (g : Game) : Option Game :=
  let shoe0 := g.shoe.ensure_cards_for_players shuffle 1
  let (shoe1, player1) := drawInto shoe0 g.player 0
  let (shoe2, dealer1) := drawInto shoe1 g.dealer 0
  let (shoe3, player2) := drawInto shoe2 player1 0
  let (shoe4, dealer2) := drawInto shoe3 dealer1 0
  match player2.hands.get? 0, dealer2.hands.get? 0 with
  | some ph, some dh =>
      if ph.is_natural_blackjack then
        if dh.is_natural_blackjack then
          let bank := player2.bank_roll + ph.bet
          let player3 : Player :=
            { hands := player2.hands.set 0 { ph with outcome := some HandOutcome.Push }
              bank_roll := bank }
          some { g with
                 shoe := shoe4
                 player := player3
                 dealer := dealer2
                 state := GameState.RoundComplete dh player3.hands bank }
        else
          let bank := player2.bank_roll + ph.bet * (5 / 2)
          let player3 : Player :=
            { hands := player2.hands.set 0 { ph with outcome := some HandOutcome.Blackjack }
              bank_roll := bank }
          some { g with
                 shoe := shoe4
                 player := player3
                 dealer := dealer2
                 state := GameState.RoundComplete dh player3.hands bank }
      else if dh.is_natural_blackjack then
        let player3 : Player :=
          { hands := player2.hands.set 0 { ph with outcome := some HandOutcome.Loss }
            bank_roll := player2.bank_roll }
        some { g with
                 shoe := shoe4
                 player := player3
                 dealer := dealer2
                 state := GameState.RoundComplete dh player3.hands player3.bank_roll }
      else
        some { g with
                 shoe := shoe4
                 player := player2
                 dealer := dealer2
                 state := GameState.PlayerTurn dh player2.hands player2.bank_roll 0 }
  | _, _ => none

/-- The loop body of `determine_winner_and_complete_round` (src/game.rs lines
349-366): total bankroll credit plus the hands with their outcomes stamped. -/
def settleHands (dealer_hand : Hand) : List Hand → ℚ × List Hand
  | [] => (0, [])
  | hand :: rest =>
      let dealer_value := dealer_hand.best_value
      let player_value := hand.best_value
      let step : ℚ × HandOutcome :=
        if hand.is_busted then (0, HandOutcome.Loss)
        else if dealer_hand.is_busted then (hand.bet * 2, HandOutcome.Win)
        else if player_value < dealer_value then (0, HandOutcome.Loss)
        else if dealer_value < player_value then (hand.bet * 2, HandOutcome.Win)
        else (hand.bet, HandOutcome.Push)
      let tail := settleHands dealer_hand rest
      (step.1 + tail.1, { hand with outcome := some step.2 } :: tail.2)

/-- `Game::determine_winner_and_complete_round` (src/game.rs lines 346-374). -/
def Game.determine_winner_and_complete_round (g : Game) : Option Game :=
  match g.dealer.hands.get? 0 with
  | none => none
  | some dealer_hand =>
      let settled := settleHands dealer_hand g.player.hands
      let bank := g.player.bank_roll + settled.1
      some { g with
             player := { hands := settled.2, bank_roll := bank }
             state := GameState.RoundComplete dealer_hand settled.2 bank }

/-- `Game::process_player_action` (src/game.rs lines 158-291).  The function
matches only on the action: no phase check is performed.  `none` models a Rust
index panic. -/
def Game.process_player_action (g : Game) (action : GameAction) (hand_index : ℕ) :
    Option Game :=
  match action with
  | GameAction.Hit =>
      match g.shoe.draw_card with
      | (none, _) => some g
      | (some card, shoe1) =>
          let player1 := g.player.add_card_to_hand card hand_index
          match player1.hands.get? hand_index, g.dealer.hands.get? 0 with
          | some hand, some dh =>
              if hand.is_busted then
                let player2 := player1.set_outcome hand_index HandOutcome.Loss
                if hand_index + 1 < player2.hands.length then
                  let next := drawInto shoe1 player2 (hand_index + 1)
                  some { g with
                         shoe := next.1
                         player := next.2
                         state := GameState.PlayerTurn dh next.2.hands
                           next.2.bank_roll (hand_index + 1) }
                else
                  some { g with
                         shoe := shoe1
                         player := player2
                         state := GameState.RoundComplete dh player2.hands
                           player2.bank_roll }
              else if hand.is_blackjack then
                if hand_index + 1 < player1.hands.length then
                  let next := drawInto shoe1 player1 (hand_index + 1)
                  some { g with
                         shoe := next.1
                         player := next.2
                         state := GameState.PlayerTurn dh next.2.hands
                           next.2.bank_roll (hand_index + 1) }
                else
                  some { g with
                         shoe := shoe1
                         player := player1
                         state := GameState.DealerTurn dh player1.hands
                           player1.bank_roll }
              else
                some { g with
                       shoe := shoe1
                       player := player1
                       state := GameState.PlayerTurn dh player1.hands
                         player1.bank_roll hand_index }
          | _, _ => none
  | GameAction.Stand =>
      match g.dealer.hands.get? 0 with
      | none => none
      | some dh =>
          if hand_index + 1 < g.player.hands.length then
            let next := drawInto g.shoe g.player (hand_index + 1)
            some { g with
                   shoe := next.1
                   player := next.2
                   state := GameState.PlayerTurn dh next.2.hands
                     next.2.bank_roll (hand_index + 1) }
          else
            some { g with
                   state := GameState.DealerTurn dh g.player.hands g.player.bank_roll }
  | GameAction.Double =>
      match g.shoe.draw_card with
      | (none, _) => some g
      | (some card, shoe1) =>
          let player1 := g.player.add_card_to_hand card hand_index
          match player1.hands.get? hand_index, g.dealer.hands.get? 0 with
          | some hand, some dh =>
              let player2 : Player :=
                { hands := player1.hands.set hand_index { hand with bet := hand.bet * 2 }
                  bank_roll := player1.bank_roll - hand.bet }
              if hand_index + 1 < player2.hands.length then
                let next := drawInto shoe1 player2 (hand_index + 1)
                some { g with
                       shoe := next.1
                       player := next.2
                       state := GameState.PlayerTurn dh next.2.hands
                         next.2.bank_roll (hand_index + 1) }
              else
                some { g with
                       shoe := shoe1
                       player := player2
                       state := GameState.DealerTurn dh player2.hands
                         player2.bank_roll }
          | _, _ => none
  | GameAction.Split =>
      match g.player.hands.get? hand_index with
      | none => none
      | some hand =>
          if hand.cards.length = 2 then
            match hand.cards.get? hand_index, hand.cards.get? 1 with
            | some cIdx, some c1 =>
                if cIdx.rank = c1.rank then
                  let hand1 : Hand := { hand with cards := hand.cards.dropLast }
                  let new_bet := hand.bet
                  let new_hand := Hand.with_card_and_bet c1 new_bet
                  let hands2 :=
                    (g.player.hands.set hand_index hand1).insertIdx (hand_index + 1) new_hand
                  let player2 : Player :=
                    { hands := hands2, bank_roll := g.player.bank_roll - new_bet }
                  match g.shoe.draw_card with
                  | (none, _) => some { g with player := player2 }
                  | (some card1, shoe1) =>
                      match g.dealer.hands.get? 0 with
                      | none => none
                      | some dh =>
                          let player3 := player2.add_card_to_hand card1 hand_index
                          some { g with
                                 shoe := shoe1
                                 player := player3
                                 state := GameState.PlayerTurn dh player3.hands
                                   player3.bank_roll hand_index }
                else some g
            | _, _ => none
          else some g

/-- `Game::next_dealer_turn` (src/game.rs lines 299-329): a no-op outside
`DealerTurn`; inside, hit on 16 or below, settle on bust or on 17 and above. -/
def Game.next_dealer_turn (g : Game) : Option Game :=
  match g.state with
  | GameState.DealerTurn _ _ _ =>
      match g.dealer.hands.get? 0 with
      | none => none
      | some d0 =>
          if d0.best_value ≤ 16 then
            match g.shoe.draw_card with
            | (none, _) => some g
            | (some card, shoe1) =>
                let dealer1 := g.dealer.add_card_to_hand card 0
                let g1 := { g with shoe := shoe1, dealer := dealer1 }
                match dealer1.hands.get? 0 with
                | none => none
                | some d1 =>
                    if d1.is_busted then g1.determine_winner_and_complete_round
                    else
                      some { g1 with
                             state := GameState.DealerTurn d1 g1.player.hands
                               g1.player.bank_roll }
          else g.determine_winner_and_complete_round
  | _ => some g

/-- `Game::next_round` (src/game.rs lines 334-338). -/
def Game.next_round (g : Game) : Game :=
  let player := g.player.reset_hands
  { g with
    player := player
    dealer := g.dealer.reset_hands
    state := GameState.WaitingForBet player.bank_roll }

/-! ### Infrastructure lemmas about the hand-value calculator -/

theorem rustDedup_mem (l : List ℕ) (a : ℕ) : a ∈ rustDedup l ↔ a ∈ l := by
  induction l using rustDedup.induct with
  | case1 => simp [rustDedup]
  | case2 b => simp [rustDedup]
  | case3 c rest ih =>
      rw [rustDedup, if_pos rfl]
      simp only [List.mem_cons] at ih ⊢
      tauto
  | case4 b c rest hbc ih =>
      rw [rustDedup, if_neg hbc]
      simp only [List.mem_cons] at ih ⊢
      tauto

theorem rustDedup_ne_nil (l : List ℕ) (h : l ≠ []) : rustDedup l ≠ [] := by
  induction l using rustDedup.induct with
  | case1 => exact absurd rfl h
  | case2 b => simp [rustDedup]
  | case3 c rest ih =>
      rw [rustDedup, if_pos rfl]
      exact ih (by simp)
  | case4 b c rest hbc ih =>
      rw [rustDedup, if_neg hbc]
      simp

theorem rustDedup_sorted (l : List ℕ) (h : l.Sorted (· ≤ ·)) :
    (rustDedup l).Sorted (· < ·) := by
  induction l using rustDedup.induct with
  | case1 => simp [rustDedup]
  | case2 b => simp [rustDedup]
  | case3 c rest ih =>
      rw [rustDedup, if_pos rfl]
      exact ih h.of_cons
  | case4 b c rest hbc ih =>
      rw [rustDedup, if_neg hbc]
      refine List.sorted_cons.mpr ⟨?_, ih h.of_cons⟩
      intro x hx
      have hmem : x ∈ c :: rest := (rustDedup_mem _ _).mp hx
      have hbc' : b < c :=
        lt_of_le_of_ne (List.rel_of_sorted_cons h c (List.mem_cons_self c rest)) hbc
      rcases List.mem_cons.mp hmem with rfl | hxr
      · exact hbc'
      · exact lt_of_lt_of_le hbc' (List.rel_of_sorted_cons h.of_cons x hxr)

theorem branchAces_ne_nil (k : ℕ) (ts : List ℕ) (h : ts ≠ []) :
    branchAces k ts ≠ [] := by
  induction k generalizing ts with
  | zero => exact h
  | succ k ih =>
      rw [branchAces]
      apply ih
      cases ts with
      | nil => exact absurd rfl h
      | cons t ts' => simp

theorem mem_branchAces {k : ℕ} {ts : List ℕ} {v : ℕ} (hv : v ∈ branchAces k ts) :
    ∃ t ∈ ts, ∃ j ≤ k, v = t + k + 10 * j := by
  induction k generalizing ts with
  | zero => exact ⟨v, hv, 0, Nat.le_refl 0, by simp⟩
  | succ k ih =>
      rw [branchAces] at hv
      obtain ⟨t', ht', j, hj, hval⟩ := ih hv
      rw [List.mem_flatMap] at ht'
      obtain ⟨t, ht, hmem⟩ := ht'
      simp only [List.mem_cons, List.mem_singleton, List.not_mem_nil, or_false] at hmem
      rcases hmem with rfl | rfl
      · exact ⟨t, ht, j, Nat.le_succ_of_le hj, by omega⟩
      · exact ⟨t, ht, j + 1, by omega, by omega⟩

theorem possible_values_sorted (h : Hand) : h.possible_values.Sorted (· < ·) :=
  rustDedup_sorted _ (List.sorted_insertionSort _ _)

theorem possible_values_ne_nil (h : Hand) : h.possible_values ≠ [] := by
  unfold Hand.possible_values
  apply rustDedup_ne_nil
  intro hnil
  have hperm := List.perm_insertionSort (· ≤ ·)
    (branchAces (nonAceFold h.cards).2 [(nonAceFold h.cards).1])
  rw [hnil] at hperm
  exact branchAces_ne_nil _ [(nonAceFold h.cards).1] (by simp) hperm.symm.eq_nil

theorem mem_possible_values {h : Hand} {v : ℕ} :
    v ∈ h.possible_values ↔
      v ∈ branchAces (nonAceFold h.cards).2 [(nonAceFold h.cards).1] := by
  unfold Hand.possible_values
  rw [rustDedup_mem]
  exact List.mem_insertionSort _

/-- On a list sorted in decreasing order, `find?` of "≤ 21" either fails, with
every element exceeding 21, or returns the greatest element that is ≤ 21. -/
theorem find?_le21_of_sorted_ge (l : List ℕ) (hl : l.Sorted (fun a b => b ≤ a)) :
    (l.find? (fun v => decide (v ≤ 21)) = none ∧ ∀ x ∈ l, 21 < x) ∨
    (∃ a, l.find? (fun v => decide (v ≤ 21)) = some a ∧ a ∈ l ∧ a ≤ 21 ∧
      ∀ v ∈ l, v ≤ 21 → v ≤ a) := by
  induction l with
  | nil => left; simp
  | cons a t ih =>
      by_cases ha : a ≤ 21
      · right
        refine ⟨a, ?_, List.mem_cons_self a t, ha, ?_⟩
        · rw [List.find?_cons_of_pos _ (by simpa using ha)]
        · intro v hv _
          rcases List.mem_cons.mp hv with rfl | hvt
          · exact Nat.le_refl v
          · exact List.rel_of_sorted_cons hl v hvt
      · rcases ih hl.of_cons with ⟨hn, hall⟩ | ⟨b, hfind, hb, hble, hmax⟩
        · left
          refine ⟨?_, ?_⟩
          · rw [List.find?_cons_of_neg _ (by simpa using ha)]
            exact hn
          · intro x hx
            rcases List.mem_cons.mp hx with rfl | hxt
            · exact Nat.lt_of_not_le ha
            · exact hall x hxt
        · right
          refine ⟨b, ?_, List.mem_cons_of_mem a hb, hble, ?_⟩
          · rw [List.find?_cons_of_neg _ (by simpa using ha)]
            exact hfind
          · intro v hv hv21
            rcases List.mem_cons.mp hv with rfl | hvt
            · exact absurd hv21 ha
            · exact hmax v hvt hv21

theorem possible_values_reverse_sorted (h : Hand) :
    h.possible_values.reverse.Sorted (fun a b => b ≤ a) := by
  rw [List.Sorted, List.pairwise_reverse]
  exact (possible_values_sorted h).imp (fun hlt => le_of_lt hlt)

/-- The fold in `possible_values` computes the sum of the non-Ace card values
and the number of Aces. -/
theorem nonAceFold_go (cards : List Card) (p : ℕ × ℕ) :
    cards.foldl
      (fun p card =>
        match card.rank with
        | Rank.Ace => (p.1, p.2 + 1)
        | r => (p.1 + r.value.headD 0, p.2)) p
    = (p.1 + ((cards.filter (fun c => !(c.rank == Rank.Ace))).map
        (fun c => c.rank.value.headD 0)).sum,
       p.2 + cards.countP (fun c => c.rank == Rank.Ace)) := by
  induction cards generalizing p with
  | nil => simp
  | cons c cs ih =>
      obtain ⟨r, s⟩ := c
      cases r <;>
        (rw [List.foldl_cons, ih]
         simp [List.filter_cons, List.countP_cons, Rank.value, Prod.ext_iff]
         omega)

theorem nonAceFold_spec (cards : List Card) :
    nonAceFold cards
      = (((cards.filter (fun c => !(c.rank == Rank.Ace))).map
            (fun c => c.rank.value.headD 0)).sum,
         cards.countP (fun c => c.rank == Rank.Ace)) := by
  unfold nonAceFold
  rw [nonAceFold_go]
  simp

/-! ### Claim theorems about the hand-value calculator -/

/-- C5: for every hand, `best_value()` returns the largest element of
`possible_values()` that is ≤ 21, and when every element exceeds 21 it returns
the smallest element instead; in particular {King, Queen, Jack} has
`is_busted() = true` and `best_value() = 30`. -/
theorem claim5_best_value_spec (h : Hand) :
    h.best_value ∈ h.possible_values ∧
    (∀ v ∈ h.possible_values, v ≤ 21 → v ≤ h.best_value) ∧
    ((∃ v ∈ h.possible_values, v ≤ 21) → h.best_value ≤ 21) ∧
    ((∀ v ∈ h.possible_values, 21 < v) → ∀ v ∈ h.possible_values, h.best_value ≤ v) ∧
    ((⟨0, [⟨Rank.King, Suit.Spades⟩, ⟨Rank.Queen, Suit.Hearts⟩,
        ⟨Rank.Jack, Suit.Diamonds⟩], none⟩ : Hand).is_busted = true ∧
      (⟨0, [⟨Rank.King, Suit.Spades⟩, ⟨Rank.Queen, Suit.Hearts⟩,
        ⟨Rank.Jack, Suit.Diamonds⟩], none⟩ : Hand).best_value = 30) := by
  have hpv := possible_values_ne_nil h
  have hsorted := possible_values_sorted h
  rcases find?_le21_of_sorted_ge _ (possible_values_reverse_sorted h) with
    ⟨hnone, hall⟩ | ⟨a, hfind, hamem, ha21, hmax⟩
  · have hbv : h.best_value = h.possible_values.headD 0 := by
      unfold Hand.best_value
      dsimp only
      rw [hnone]
      rfl
    obtain ⟨x, t, hx⟩ := List.exists_cons_of_ne_nil hpv
    refine ⟨?_, ?_, ?_, ?_, by decide, by decide⟩
    · rw [hbv, hx]
      exact List.mem_cons_self x t
    · intro v hv hv21
      exact absurd (hall v (List.mem_reverse.mpr hv)) (Nat.not_lt.mpr hv21)
    · rintro ⟨v, hv, hv21⟩
      exact absurd (hall v (List.mem_reverse.mpr hv)) (Nat.not_lt.mpr hv21)
    · intro _ v hv
      rw [hbv, hx]
      rw [hx] at hv hsorted
      rcases List.mem_cons.mp hv with rfl | hvt
      · exact Nat.le_refl v
      · exact le_of_lt (List.rel_of_sorted_cons hsorted v hvt)
  · have hbv : h.best_value = a := by
      unfold Hand.best_value
      dsimp only
      rw [hfind]
      rfl
    refine ⟨?_, ?_, ?_, ?_, by decide, by decide⟩
    · rw [hbv]
      exact List.mem_reverse.mp hamem
    · intro v hv hv21
      rw [hbv]
      exact hmax v (List.mem_reverse.mpr hv) hv21
    · intro _
      rw [hbv]
      exact ha21
    · intro habs
      exact absurd ha21 (Nat.not_le.mpr (habs a (List.mem_reverse.mp hamem)))

/-- Witness for C5 at the hand {Ace, King}: its best value is 21, hence ≤ 21. -/
theorem claim5_best_value_spec_witness :
    (⟨0, [⟨Rank.Ace, Suit.Spades⟩, ⟨Rank.King, Suit.Hearts⟩], none⟩ : Hand).best_value
      ≤ 21 :=
  (claim5_best_value_spec
    ⟨0, [⟨Rank.Ace, Suit.Spades⟩, ⟨Rank.King, Suit.Hearts⟩], none⟩).2.2.1
    ⟨21, by decide, by decide⟩

/-- C10: `possible_values()` is never empty (so `best_value`'s fallback indexing
of the first element is in bounds and all value queries are total); the empty
hand yields [0], `best_value 0`, not busted, not blackjack. -/
theorem claim10_possible_values_total (h : Hand) :
    h.possible_values ≠ [] ∧
    Hand.new.possible_values = [0] ∧
    Hand.new.best_value = 0 ∧
    Hand.new.is_busted = false ∧
    Hand.new.is_blackjack = false :=
  ⟨possible_values_ne_nil h, by decide, by decide, by decide, by decide⟩

/-- Counterexample to C6 as stated: the hand {Ace, King} yields
`possible_values() = [11, 21]`, not `[12, 22]` as claimed. -/
theorem claim6_counterexample :
    (⟨0, [⟨Rank.Ace, Suit.Spades⟩, ⟨Rank.King, Suit.Hearts⟩], none⟩ : Hand).possible_values
        = [11, 21] ∧
    ¬ ((⟨0, [⟨Rank.Ace, Suit.Spades⟩, ⟨Rank.King, Suit.Hearts⟩],
        none⟩ : Hand).possible_values = [12, 22]) := by
  constructor
  · decide
  · decide

/-- C6 (amended: {Ace, King} yields [11, 21]): `possible_values()` is a
deduplicated ascending-sorted list; with `k` Aces and non-Ace sum `S` every
element has the form `S + k + 10*j` with `j ≤ k`, and there are at most `k + 1`
elements; a hand with no Ace yields the single-element result `[S]`;
{Ace, Ace} yields [2, 12, 22]. -/
theorem claim6_possible_values_spec (h : Hand) :
    (∀ v ∈ h.possible_values,
        ∃ j ≤ h.cards.countP (fun c => c.rank == Rank.Ace),
          v = ((h.cards.filter (fun c => !(c.rank == Rank.Ace))).map
                (fun c => c.rank.value.headD 0)).sum
              + h.cards.countP (fun c => c.rank == Rank.Ace) + 10 * j) ∧
    h.possible_values.length ≤ h.cards.countP (fun c => c.rank == Rank.Ace) + 1 ∧
    h.possible_values.Sorted (· < ·) ∧
    ((∀ c ∈ h.cards, c.rank ≠ Rank.Ace) →
      h.possible_values
        = [((h.cards.filter (fun c => !(c.rank == Rank.Ace))).map
            (fun c => c.rank.value.headD 0)).sum]) ∧
    ((⟨0, [⟨Rank.Ace, Suit.Spades⟩, ⟨Rank.Ace, Suit.Hearts⟩], none⟩ : Hand).possible_values
        = [2, 12, 22]) ∧
    ((⟨0, [⟨Rank.Ace, Suit.Spades⟩, ⟨Rank.King, Suit.Hearts⟩], none⟩ : Hand).possible_values
        = [11, 21]) := by
  have hS1 : (nonAceFold h.cards).1
      = ((h.cards.filter (fun c => !(c.rank == Rank.Ace))).map
          (fun c => c.rank.value.headD 0)).sum := by
    rw [nonAceFold_spec]
  have hS2 : (nonAceFold h.cards).2 = h.cards.countP (fun c => c.rank == Rank.Ace) := by
    rw [nonAceFold_spec]
  have hform : ∀ v ∈ h.possible_values,
      ∃ j ≤ (nonAceFold h.cards).2,
        v = (nonAceFold h.cards).1 + (nonAceFold h.cards).2 + 10 * j := by
    intro v hv
    obtain ⟨t, ht, j, hj, hval⟩ := mem_branchAces (mem_possible_values.mp hv)
    simp only [List.mem_singleton] at ht
    exact ⟨j, hj, by rw [hval, ht]⟩
  refine ⟨?_, ?_, possible_values_sorted h, ?_, by decide, by decide⟩
  · intro v hv
    obtain ⟨j, hj, hval⟩ := hform v hv
    exact ⟨j, hS2 ▸ hj, by rw [← hS1, ← hS2]; exact hval⟩
  · have hnodup : h.possible_values.Nodup := (possible_values_sorted h).nodup
    rw [← hS2]
    calc h.possible_values.length
        = h.possible_values.toFinset.card := (List.toFinset_card_of_nodup hnodup).symm
      _ ≤ ((Finset.range ((nonAceFold h.cards).2 + 1)).image
            (fun j => (nonAceFold h.cards).1 + (nonAceFold h.cards).2 + 10 * j)).card := by
            apply Finset.card_le_card
            intro v hv
            rw [List.mem_toFinset] at hv
            obtain ⟨j, hj, hval⟩ := hform v hv
            rw [Finset.mem_image]
            exact ⟨j, Finset.mem_range.mpr (Nat.lt_succ_of_le hj), hval.symm⟩
      _ ≤ (Finset.range ((nonAceFold h.cards).2 + 1)).card := Finset.card_image_le
      _ = (nonAceFold h.cards).2 + 1 := Finset.card_range _
  · intro hnoace
    have hk : (nonAceFold h.cards).2 = 0 := by
      rw [hS2, List.countP_eq_zero]
      intro c hc
      simpa using hnoace c hc
    rw [← hS1]
    unfold Hand.possible_values
    dsimp only
    rw [hk]
    rfl

/-! ### Helper lemmas about players and the game operations -/

theorem get?_set_self {α : Type} (l : List α) (i : ℕ) (a b : α)
    (h : l.get? i = some a) : (l.set i b).get? i = some b := by
  have hlen : i < l.length := (List.get?_eq_some.mp h).1
  rw [List.get?_eq_getElem?, List.getElem?_set_self hlen]

theorem add_card_to_hand_bank (p : Player) (c : Card) (i : ℕ) :
    (p.add_card_to_hand c i).bank_roll = p.bank_roll := by
  unfold Player.add_card_to_hand
  cases p.hands.get? i <;> rfl

theorem add_card_to_hand_get (p : Player) (c : Card) (i : ℕ) (h : Hand)
    (hi : p.hands.get? i = some h) :
    (p.add_card_to_hand c i).hands.get? i = some (h.add_card c) := by
  unfold Player.add_card_to_hand
  rw [hi]
  exact get?_set_self _ _ _ _ hi

theorem add_card_to_hand_length (p : Player) (c : Card) (i : ℕ) :
    (p.add_card_to_hand c i).hands.length = p.hands.length := by
  unfold Player.add_card_to_hand
  cases p.hands.get? i <;> simp

theorem drawInto_bank (shoe : Shoe) (p : Player) (i : ℕ) :
    (drawInto shoe p i).2.bank_roll = p.bank_roll := by
  unfold drawInto
  rcases hd : shoe.draw_card with ⟨oc, s1⟩
  cases oc
  · rfl
  · exact add_card_to_hand_bank _ _ _

/-! ### Claim theorems about the round state machine -/

/-- A reachable `PlayerTurn` configuration after a split: two player hands, the
second holding {Eight of Diamonds, King of Hearts} — two cards of unequal rank. -/
def splitBugGame : Game :=
  { settings := ⟨"Player1", 1⟩
    shoe := Shoe.new 1
    player := ⟨[⟨100, [⟨Rank.Eight, Suit.Spades⟩, ⟨Rank.Eight, Suit.Clubs⟩], none⟩,
                ⟨100, [⟨Rank.Eight, Suit.Diamonds⟩, ⟨Rank.King, Suit.Hearts⟩], none⟩], 9800⟩
    dealer := ⟨[⟨0, [⟨Rank.Ten, Suit.Spades⟩, ⟨Rank.Seven, Suit.Hearts⟩], none⟩], 10000⟩
    state := GameState.PlayerTurn
      ⟨0, [⟨Rank.Ten, Suit.Spades⟩, ⟨Rank.Seven, Suit.Hearts⟩], none⟩
      [⟨100, [⟨Rank.Eight, Suit.Spades⟩, ⟨Rank.Eight, Suit.Clubs⟩], none⟩,
       ⟨100, [⟨Rank.Eight, Suit.Diamonds⟩, ⟨Rank.King, Suit.Hearts⟩], none⟩] 9800 1 }

/-- C1 (evaluation at the failing input): the Split arm compares
`cards[hand_index]` with `cards[1]` instead of `cards[0]` with `cards[1]`, so at
active hand index 1 a hand of two UNEQUAL ranks — `can_split = false` — is
split anyway: a third hand appears and the bankroll is debited. -/
theorem claim1_split_not_refused :
    (splitBugGame.player.hands.get? 1
        = some ⟨100, [⟨Rank.Eight, Suit.Diamonds⟩, ⟨Rank.King, Suit.Hearts⟩], none⟩) ∧
    ((⟨100, [⟨Rank.Eight, Suit.Diamonds⟩, ⟨Rank.King, Suit.Hearts⟩], none⟩ : Hand).can_split
        = false) ∧
    ((splitBugGame.process_player_action GameAction.Split 1).map
        (fun g => g.player.hands.length)
      = some 3) ∧
    ((splitBugGame.process_player_action GameAction.Split 1).map
        (fun g => g.player.bank_roll)
      = some (9800 - 100)) ∧
    ((9800 : ℚ) - 100 = 9700) ∧
    splitBugGame.player.hands.length = 2 := by
  refine ⟨by decide, by decide, by decide, by rfl, by norm_num, by decide⟩

/-- Counterexample to C2 as stated: `process_player_action` performs no phase
check, so a Hit submitted while the game is in `WaitingForBet` draws a card
from the shoe into the player's hand (hand sizes become [1], the shoe shrinks
to 51 cards) instead of leaving the state unchanged. -/
theorem claim2_counterexample :
    (Game.new ⟨"Player1", 1⟩).state = GameState.WaitingForBet 10000 ∧
    ((Game.new ⟨"Player1", 1⟩).process_player_action GameAction.Hit 0).map
        (fun g => (g.player.hands.map (fun h => h.cards.length), g.shoe.cards.length))
      = some ([1], 51) ∧
    (Game.new ⟨"Player1", 1⟩).shoe.cards.length = 52 := by
  refine ⟨rfl, by decide, by decide⟩

/-- C2 (amended: only `next_dealer_turn` checks the phase): `next_dealer_turn`
is a no-op — it returns the game unchanged — in every state other than
`DealerTurn`.  (`process_player_action` performs no phase check at all, see the
counterexample.) -/
theorem claim2_next_dealer_turn_noop (g : Game)
    (h : ∀ dh phs b, g.state ≠ GameState.DealerTurn dh phs b) :
    g.next_dealer_turn = some g := by
  rcases hs : g.state with _ | ⟨_, _⟩ | ⟨_, _, _, _⟩ | ⟨dh, phs, b⟩ | ⟨_, _, _⟩
  · simp [Game.next_dealer_turn, hs]
  · simp [Game.next_dealer_turn, hs]
  · simp [Game.next_dealer_turn, hs]
  · exact absurd hs (h dh phs b)
  · simp [Game.next_dealer_turn, hs]

/-- Witness for the amended C2: on a fresh game (in `WaitingForBet`),
`next_dealer_turn` returns the game unchanged. -/
theorem claim2_next_dealer_turn_noop_witness :
    (Game.new ⟨"Player1", 1⟩).next_dealer_turn = some (Game.new ⟨"Player1", 1⟩) :=
  claim2_next_dealer_turn_noop _ (fun _ _ _ hcontra =>
    GameState.noConfusion ((rfl :
      (Game.new ⟨"Player1", 1⟩).state = GameState.WaitingForBet 10000).symm.trans hcontra))

/-- C9: neither Double nor Split checks that the bankroll covers the additional
stake — both debit unconditionally — and `accept_user_bet` rejects only bets
strictly above the bankroll (equality leaves it at 0; no lower bound).
Concretely, betting the whole 10000 bankroll and then doubling (or splitting
the dealt pair of Aces) drives the bankroll to 10000 - 10000 - 10000 < 0. -/
theorem claim9_no_funds_check :
    (∀ (g : Game) (i : ℕ) (hand : Hand) (card : Card) (shoe1 : Shoe) (dh : Hand),
      g.shoe.draw_card = (some card, shoe1) →
      g.player.hands.get? i = some hand →
      g.dealer.hands.get? 0 = some dh →
      ∃ g', g.process_player_action GameAction.Double i = some g' ∧
        g'.player.bank_roll = g.player.bank_roll - hand.bet) ∧
    (∀ (g : Game) (hand : Hand) (c0 c1 : Card) (dh : Hand),
      g.player.hands.get? 0 = some hand →
      hand.cards = [c0, c1] →
      c0.rank = c1.rank →
      g.dealer.hands.get? 0 = some dh →
      ∃ g', g.process_player_action GameAction.Split 0 = some g' ∧
        g'.player.bank_roll = g.player.bank_roll - hand.bet) ∧
    (∀ (g : Game) (bet : ℚ) (h0 : Hand),
      g.player.hands.get? 0 = some h0 →
      bet ≤ g.player.bank_roll →
      ∃ g', g.accept_user_bet bet = some g' ∧
        g'.player.bank_roll = g.player.bank_roll - bet ∧
        g'.state = GameState.WaitingToDeal bet (g.player.bank_roll - bet)) ∧
    (∀ (g : Game) (bet : ℚ),
      g.player.bank_roll < bet → g.accept_user_bet bet = some g) ∧
    ((((Game.new ⟨"Player1", 1⟩).accept_user_bet 10000).bind
        (Game.deal_initial_cards id)).map (fun g => g.state)
      = some (GameState.PlayerTurn
          ⟨0, [⟨Rank.Ace, Suit.Hearts⟩, ⟨Rank.Ace, Suit.Clubs⟩], none⟩
          [⟨10000, [⟨Rank.Ace, Suit.Spades⟩, ⟨Rank.Ace, Suit.Diamonds⟩], none⟩]
          (10000 - 10000) 0)) ∧
    (((((Game.new ⟨"Player1", 1⟩).accept_user_bet 10000).bind
        (Game.deal_initial_cards id)).bind
        (fun g => g.process_player_action GameAction.Double 0)).map
        (fun g => g.player.bank_roll) = some (10000 - 10000 - 10000)) ∧
    (((((Game.new ⟨"Player1", 1⟩).accept_user_bet 10000).bind
        (Game.deal_initial_cards id)).bind
        (fun g => g.process_player_action GameAction.Split 0)).map
        (fun g => g.player.bank_roll) = some (10000 - 10000 - 10000)) ∧
    ((10000 : ℚ) - 10000 - 10000 < 0) := by
  refine ⟨?_, ?_, ?_, ?_, by rfl, by rfl, by rfl, by norm_num⟩
  · intro g i hand card shoe1 dh hdraw hhand hdh
    unfold Game.process_player_action
    rw [hdraw]
    dsimp only
    rw [add_card_to_hand_get _ _ _ _ hhand, hdh]
    dsimp only
    by_cases hlen : i + 1 < ((g.player.add_card_to_hand card i).hands.set i
        { hand.add_card card with bet := (hand.add_card card).bet * 2 }).length
    · rw [if_pos hlen]
      exact ⟨_, rfl, by rw [drawInto_bank]; rw [add_card_to_hand_bank]; rfl⟩
    · rw [if_neg hlen]
      exact ⟨_, rfl, by rw [add_card_to_hand_bank]; rfl⟩
  · intro g hand c0 c1 dh hhand hcards hrank hdh
    unfold Game.process_player_action
    rw [hhand]
    dsimp only
    rw [hcards]
    rw [if_pos (show (([c0, c1] : List Card).length = 2) from rfl)]
    simp only [List.get?_cons_zero, List.get?_cons_succ]
    rw [if_pos hrank]
    rcases hd : g.shoe.draw_card with ⟨oc, s1⟩
    cases oc with
    | none => exact ⟨_, rfl, rfl⟩
    | some card1 =>
        rw [hdh]
        exact ⟨_, rfl, by rw [add_card_to_hand_bank]⟩
  · intro g bet h0 hh0 hbet
    unfold Game.accept_user_bet
    rw [if_neg (not_lt.mpr hbet), hh0]
    exact ⟨_, rfl, rfl, rfl⟩
  · intro g bet hbet
    unfold Game.accept_user_bet
    rw [if_pos hbet]

/-- Witness for C9: a bet of exactly the whole starting bankroll is accepted
and leaves the bankroll at 10000 - 10000. -/
theorem claim9_no_funds_check_witness :
    ∃ g', (Game.new ⟨"Player1", 1⟩).accept_user_bet 10000 = some g' ∧
      g'.player.bank_roll = (Game.new ⟨"Player1", 1⟩).player.bank_roll - 10000 ∧
      g'.state = GameState.WaitingToDeal 10000
        ((Game.new ⟨"Player1", 1⟩).player.bank_roll - 10000) :=
  claim9_no_funds_check.2.2.1 (Game.new ⟨"Player1", 1⟩) 10000 Hand.new rfl (le_refl _)

/-! ### Shoe lemmas and claim C7 -/

/-- Repeated drawing from a shoe, for stating the depletion invariant. -/
def Shoe.drawN (s : Shoe) : ℕ → Shoe
  | 0 => s
  | k + 1 => ((s.draw_card).2).drawN k

theorem deckRepeat_length (n : ℕ) : (deckRepeat n).length = n * 52 := by
  induction n with
  | zero => rfl
  | succ n ih =>
      rw [deckRepeat, List.length_append, ih]
      have : fullDeck.length = 52 := rfl
      omega

theorem deckRepeat_countP (p : Card → Bool) (n : ℕ) :
    (deckRepeat n).countP p = n * fullDeck.countP p := by
  induction n with
  | zero => simp [deckRepeat]
  | succ n ih =>
      rw [deckRepeat, List.countP_append, ih]
      ring

theorem draw_card_of_ne_nil (s : Shoe) (h : s.cards ≠ []) :
    ∃ c s', s.draw_card = (some c, s') ∧
      s'.cards.length + 1 = s.cards.length ∧
      s'.discarded.length = s.discarded.length + 1 ∧
      ((s'.cards : Multiset Card) + ↑s'.discarded = ↑s.cards + ↑s.discarded) ∧
      s'.number_of_decks = s.number_of_decks := by
  rcases List.eq_nil_or_concat s.cards with hnil | ⟨L, c, hc⟩
  · exact absurd hnil h
  · rw [List.concat_eq_append] at hc
    refine ⟨c, { s with cards := s.cards.dropLast, discarded := s.discarded ++ [c] },
      ?_, ?_, ?_, ?_, rfl⟩
    · unfold Shoe.draw_card
      rw [hc, List.getLast?_concat]
    · simp [hc, List.dropLast_concat]
    · simp
    · show ((s.cards.dropLast : List Card) : Multiset Card) + ↑(s.discarded ++ [c])
          = ↑s.cards + ↑s.discarded
      rw [hc, List.dropLast_concat, ← Multiset.coe_add, ← Multiset.coe_add]
      abel

theorem draw_card_of_nil (s : Shoe) (h : s.cards = []) : s.draw_card = (none, s) := by
  unfold Shoe.draw_card
  rw [h]
  rfl

theorem drawN_multiset (s : Shoe) (k : ℕ) :
    ((s.drawN k).cards : Multiset Card) + ↑(s.drawN k).discarded
      = ↑s.cards + ↑s.discarded := by
  induction k generalizing s with
  | zero => rfl
  | succ k ih =>
      rw [Shoe.drawN]
      by_cases h : s.cards = []
      · rw [draw_card_of_nil s h]
        exact ih s
      · obtain ⟨c, s', hdraw, _, _, hms, _⟩ := draw_card_of_ne_nil s h
        rw [hdraw]
        rw [ih s']
        exact hms

theorem drawN_lengths (k : ℕ) (s : Shoe) (hk : k ≤ s.cards.length) :
    (s.drawN k).cards.length = s.cards.length - k ∧
    (s.drawN k).discarded.length = s.discarded.length + k := by
  induction k generalizing s with
  | zero => exact ⟨rfl, rfl⟩
  | succ k ih =>
      rw [Shoe.drawN]
      have hne : s.cards ≠ [] := by
        intro hnil
        rw [hnil] at hk
        simp at hk
      obtain ⟨c, s', hdraw, hlen, hdis, _, _⟩ := draw_card_of_ne_nil s hne
      rw [hdraw]
      dsimp only
      obtain ⟨h1, h2⟩ := ih s' (by omega)
      exact ⟨by omega, by omega⟩

/-- C7: `Shoe::new(n)` yields 52n cards, each rank 4n times and each suit 13n
times, with an empty discard pile; a draw moves exactly one card from available
to discarded and preserves the multiset union; the union is preserved by every
sequence of draws; after 52n draws the shoe is empty, the discard pile holds
52n cards, and a further draw signals exhaustion. -/
theorem claim7_shoe_invariants :
    (∀ n : ℕ, (Shoe.new n).cards.length = 52 * n ∧
      (Shoe.new n).discarded = [] ∧
      (∀ r : Rank, (Shoe.new n).cards.countP (fun c => c.rank == r) = 4 * n) ∧
      (∀ su : Suit, (Shoe.new n).cards.countP (fun c => c.suit == su) = 13 * n)) ∧
    (∀ s : Shoe, s.cards ≠ [] → ∃ c s', s.draw_card = (some c, s') ∧
      s'.cards.length + 1 = s.cards.length ∧
      s'.discarded.length = s.discarded.length + 1 ∧
      ((s'.cards : Multiset Card) + ↑s'.discarded = ↑s.cards + ↑s.discarded)) ∧
    (∀ s : Shoe, s.cards = [] → s.draw_card = (none, s)) ∧
    (∀ (s : Shoe) (k : ℕ),
      ((s.drawN k).cards : Multiset Card) + ↑(s.drawN k).discarded
        = ↑s.cards + ↑s.discarded) ∧
    (∀ n : ℕ, ((Shoe.new n).drawN (52 * n)).cards = [] ∧
      ((Shoe.new n).drawN (52 * n)).discarded.length = 52 * n ∧
      ((Shoe.new n).drawN (52 * n)).draw_card = (none, (Shoe.new n).drawN (52 * n))) := by
  have hlen : ∀ n : ℕ, (Shoe.new n).cards.length = 52 * n := by
    intro n
    show (deckRepeat n).length = 52 * n
    rw [deckRepeat_length]
    omega
  refine ⟨?_, ?_, draw_card_of_nil, drawN_multiset, ?_⟩
  · intro n
    refine ⟨hlen n, rfl, ?_, ?_⟩
    · intro r
      show (deckRepeat n).countP _ = 4 * n
      rw [deckRepeat_countP]
      have : fullDeck.countP (fun c => c.rank == r) = 4 := by
        revert r
        decide
      rw [this]
      omega
    · intro su
      show (deckRepeat n).countP _ = 13 * n
      rw [deckRepeat_countP]
      have : fullDeck.countP (fun c => c.suit == su) = 13 := by
        revert su
        decide
      rw [this]
      omega
  · intro s h
    obtain ⟨c, s', hdraw, h1, h2, h3, _⟩ := draw_card_of_ne_nil s h
    exact ⟨c, s', hdraw, h1, h2, h3⟩
  · intro n
    obtain ⟨h1, h2⟩ := drawN_lengths (52 * n) (Shoe.new n) (le_of_eq (hlen n).symm)
    have hcards : ((Shoe.new n).drawN (52 * n)).cards = [] := by
      rw [← List.length_eq_zero]
      rw [h1, hlen n]
      omega
    refine ⟨hcards, ?_, draw_card_of_nil _ hcards⟩
    rw [h2]
    show List.length [] + 52 * n = 52 * n
    simp

/-- Witness for C7: drawing from a fresh one-deck shoe succeeds and moves one
card to the discard pile. -/
theorem claim7_shoe_invariants_witness :
    ∃ c s', (Shoe.new 1).draw_card = (some c, s') ∧
      s'.cards.length + 1 = (Shoe.new 1).cards.length ∧
      s'.discarded.length = (Shoe.new 1).discarded.length + 1 ∧
      ((s'.cards : Multiset Card) + ↑s'.discarded
        = ↑(Shoe.new 1).cards + ↑(Shoe.new 1).discarded) :=
  claim7_shoe_invariants.2.1 (Shoe.new 1) (by decide)

/-! ### Settlement: claim C3 -/

/-- The per-hand settlement outcome exactly as the spec words it: busted hand →
Loss; else dealer busted → Win; else compare best values. -/
def settleOutcome (dealer_hand hand : Hand) : HandOutcome :=
  if hand.is_busted then HandOutcome.Loss
  else if dealer_hand.is_busted then HandOutcome.Win
  else if hand.best_value < dealer_hand.best_value then HandOutcome.Loss
  else if dealer_hand.best_value < hand.best_value then HandOutcome.Win
  else HandOutcome.Push

/-- The per-hand bankroll credit as the spec words it: Win → bet×2, Push → bet,
Loss → nothing. -/
def settleCredit (dealer_hand hand : Hand) : ℚ :=
  if hand.is_busted then 0
  else if dealer_hand.is_busted then hand.bet * 2
  else if hand.best_value < dealer_hand.best_value then 0
  else if dealer_hand.best_value < hand.best_value then hand.bet * 2
  else hand.bet

theorem settleStep_eq (dh hand : Hand) :
    (if hand.is_busted then ((0 : ℚ), HandOutcome.Loss)
     else if dh.is_busted then (hand.bet * 2, HandOutcome.Win)
     else if hand.best_value < dh.best_value then (0, HandOutcome.Loss)
     else if dh.best_value < hand.best_value then (hand.bet * 2, HandOutcome.Win)
     else (hand.bet, HandOutcome.Push))
    = (settleCredit dh hand, settleOutcome dh hand) := by
  unfold settleCredit settleOutcome
  split_ifs <;> rfl

theorem settleHands_spec (dh : Hand) (hands : List Hand) :
    settleHands dh hands
      = ((hands.map (fun hand => settleCredit dh hand)).sum,
         hands.map (fun hand =>
           { hand with outcome := some (settleOutcome dh hand) })) := by
  induction hands with
  | nil => rfl
  | cons hand rest ih =>
      rw [settleHands, ih]
      dsimp only
      rw [settleStep_eq dh hand]
      rw [List.map_cons, List.map_cons, List.sum_cons]

/-- C3: settlement stamps every player hand with the spec's outcome (Loss when
busted; Win when the dealer is busted or strictly lower, crediting bet×2; Loss
when the dealer is strictly higher; Push when equal, crediting the bet),
credits the bankroll by the sum of the per-hand credits, and ends in
`RoundComplete` with every hand carrying an outcome. -/
theorem claim3_settlement (g : Game) (dh : Hand)
    (hdh : g.dealer.hands.get? 0 = some dh) :
    ∃ g', g.determine_winner_and_complete_round = some g' ∧
      g'.player.hands.length = g.player.hands.length ∧
      (∀ i hand, g.player.hands.get? i = some hand →
        g'.player.hands.get? i
          = some { hand with outcome := some (settleOutcome dh hand) }) ∧
      g'.player.bank_roll
        = g.player.bank_roll + (g.player.hands.map (fun hand => settleCredit dh hand)).sum ∧
      g'.state = GameState.RoundComplete dh g'.player.hands g'.player.bank_roll ∧
      (∀ i hand, g'.player.hands.get? i = some hand → hand.outcome.isSome) := by
  unfold Game.determine_winner_and_complete_round
  rw [hdh]
  dsimp only
  rw [settleHands_spec]
  dsimp only
  refine ⟨_, rfl, by simp, ?_, rfl, rfl, ?_⟩
  · intro i hand hi
    rw [List.get?_map, hi]
    rfl
  · intro i hand hi
    rw [List.get?_map] at hi
    cases horig : g.player.hands.get? i with
    | none => rw [horig] at hi; exact Option.noConfusion hi
    | some h0 =>
        rw [horig] at hi
        have : hand = { h0 with outcome := some (settleOutcome dh h0) } :=
          Option.some.inj hi.symm
        rw [this]
        rfl

/-- Witness for C3: a settlement where the single player hand {Ten, Nine}
beats the dealer's {Ten, Seven}. -/
theorem claim3_settlement_witness :
    ∃ g', ({ settings := ⟨"Player1", 1⟩
             shoe := Shoe.new 1
             player := ⟨[⟨100, [⟨Rank.Ten, Suit.Spades⟩, ⟨Rank.Nine, Suit.Clubs⟩], none⟩], 9900⟩
             dealer := ⟨[⟨0, [⟨Rank.Ten, Suit.Hearts⟩, ⟨Rank.Seven, Suit.Hearts⟩], none⟩], 10000⟩
             state := GameState.DealerTurn
               ⟨0, [⟨Rank.Ten, Suit.Hearts⟩, ⟨Rank.Seven, Suit.Hearts⟩], none⟩
               [⟨100, [⟨Rank.Ten, Suit.Spades⟩, ⟨Rank.Nine, Suit.Clubs⟩], none⟩]
               9900 } : Game).determine_winner_and_complete_round = some g' ∧
      g'.player.hands.length = 1 ∧
      (∀ i hand,
        ([⟨100, [⟨Rank.Ten, Suit.Spades⟩, ⟨Rank.Nine, Suit.Clubs⟩], none⟩] : List Hand).get? i
          = some hand →
        g'.player.hands.get? i
          = some { hand with outcome := some (settleOutcome
              ⟨0, [⟨Rank.Ten, Suit.Hearts⟩, ⟨Rank.Seven, Suit.Hearts⟩], none⟩ hand) }) ∧
      g'.player.bank_roll
        = 9900 + (([⟨100, [⟨Rank.Ten, Suit.Spades⟩, ⟨Rank.Nine, Suit.Clubs⟩], none⟩] :
            List Hand).map (fun hand => settleCredit
              ⟨0, [⟨Rank.Ten, Suit.Hearts⟩, ⟨Rank.Seven, Suit.Hearts⟩], none⟩ hand)).sum ∧
      g'.state = GameState.RoundComplete
        ⟨0, [⟨Rank.Ten, Suit.Hearts⟩, ⟨Rank.Seven, Suit.Hearts⟩], none⟩
        g'.player.hands g'.player.bank_roll ∧
      (∀ i hand, g'.player.hands.get? i = some hand → hand.outcome.isSome) :=
  claim3_settlement _ _ rfl

/-! ### Dealing: claim C4 -/

theorem draw_card_concat (s : Shoe) (L : List Card) (c : Card)
    (h : s.cards = L ++ [c]) :
    s.draw_card
      = (some c, { s with cards := L, discarded := s.discarded ++ [c] }) := by
  unfold Shoe.draw_card
  rw [h, List.getLast?_concat, List.dropLast_concat]

theorem drawInto_cons (shoe : Shoe) (p : Player) (L : List Card) (c : Card)
    (hh : Hand) (hs : List Hand)
    (hcards : shoe.cards = L ++ [c]) (hp : p.hands = hh :: hs) :
    drawInto shoe p 0
      = ({ shoe with cards := L, discarded := shoe.discarded ++ [c] },
         { p with hands := (hh.add_card c) :: hs }) := by
  unfold drawInto
  rw [draw_card_concat shoe L c hcards]
  unfold Player.add_card_to_hand
  rw [hp]
  rfl

/-- C4: after dealing the four initial cards (player, dealer, player, dealer
off the top of the shoe): both naturals → Push, bankroll credited the bet,
`RoundComplete`; player natural only → Blackjack, credited bet×2.5; dealer
natural only → Loss, no credit; otherwise `PlayerTurn` at index 0. -/
theorem claim4_deal_initial (shuffle : List Card → List Card) (g : Game)
    (L : List Card) (c1 c2 c3 c4 : Card) (ph dh : Hand) (rest1 rest2 : List Hand)
    (hshoe : g.shoe.cards = L ++ [c4, c3, c2, c1])
    (hL : 4 ≤ L.length)
    (hp : g.player.hands = ph :: rest1)
    (hd : g.dealer.hands = dh :: rest2) :
    ∃ g', g.deal_initial_cards shuffle = some g' ∧
      g'.shoe.cards = L ∧
      ((⟨ph.bet, ph.cards ++ [c1, c3], ph.outcome⟩ : Hand).is_natural_blackjack = true →
        (⟨dh.bet, dh.cards ++ [c2, c4], dh.outcome⟩ : Hand).is_natural_blackjack = true →
          g'.player.bank_roll = g.player.bank_roll + ph.bet ∧
          g'.player.hands
            = (⟨ph.bet, ph.cards ++ [c1, c3], some HandOutcome.Push⟩ : Hand) :: rest1 ∧
          g'.state = GameState.RoundComplete
            ⟨dh.bet, dh.cards ++ [c2, c4], dh.outcome⟩
            g'.player.hands g'.player.bank_roll) ∧
      ((⟨ph.bet, ph.cards ++ [c1, c3], ph.outcome⟩ : Hand).is_natural_blackjack = true →
        (⟨dh.bet, dh.cards ++ [c2, c4], dh.outcome⟩ : Hand).is_natural_blackjack = false →
          g'.player.bank_roll = g.player.bank_roll + ph.bet * (5 / 2) ∧
          g'.player.hands
            = (⟨ph.bet, ph.cards ++ [c1, c3], some HandOutcome.Blackjack⟩ : Hand) :: rest1 ∧
          g'.state = GameState.RoundComplete
            ⟨dh.bet, dh.cards ++ [c2, c4], dh.outcome⟩
            g'.player.hands g'.player.bank_roll) ∧
      ((⟨ph.bet, ph.cards ++ [c1, c3], ph.outcome⟩ : Hand).is_natural_blackjack = false →
        (⟨dh.bet, dh.cards ++ [c2, c4], dh.outcome⟩ : Hand).is_natural_blackjack = true →
          g'.player.bank_roll = g.player.bank_roll ∧
          g'.player.hands
            = (⟨ph.bet, ph.cards ++ [c1, c3], some HandOutcome.Loss⟩ : Hand) :: rest1 ∧
          g'.state = GameState.RoundComplete
            ⟨dh.bet, dh.cards ++ [c2, c4], dh.outcome⟩
            g'.player.hands g'.player.bank_roll) ∧
      ((⟨ph.bet, ph.cards ++ [c1, c3], ph.outcome⟩ : Hand).is_natural_blackjack = false →
        (⟨dh.bet, dh.cards ++ [c2, c4], dh.outcome⟩ : Hand).is_natural_blackjack = false →
          g'.player.bank_roll = g.player.bank_roll ∧
          g'.player.hands = (⟨ph.bet, ph.cards ++ [c1, c3], ph.outcome⟩ : Hand) :: rest1 ∧
          g'.state = GameState.PlayerTurn
            ⟨dh.bet, dh.cards ++ [c2, c4], dh.outcome⟩
            g'.player.hands g'.player.bank_roll 0) := by
  have hens : g.shoe.ensure_cards_for_players shuffle 1 = g.shoe := by
    unfold Shoe.ensure_cards_for_players
    rw [if_neg]
    intro hcon
    rw [hshoe, List.length_append] at hcon
    simp at hcon
    omega
  have h1 : g.shoe.cards = (L ++ [c4, c3, c2]) ++ [c1] := by rw [hshoe]; simp
  unfold Game.deal_initial_cards
  rw [hens]
  dsimp only
  rw [drawInto_cons g.shoe g.player (L ++ [c4, c3, c2]) c1 ph rest1 h1 hp]
  dsimp only
  rw [drawInto_cons _ g.dealer (L ++ [c4, c3]) c2 dh rest2 (by simp) hd]
  dsimp only
  rw [drawInto_cons _ _ (L ++ [c4]) c3 (ph.add_card c1) rest1 (by simp) rfl]
  dsimp only
  rw [drawInto_cons _ _ L c4 (dh.add_card c2) rest2 rfl rfl]
  dsimp only
  have hph : (ph.add_card c1).add_card c3
      = (⟨ph.bet, ph.cards ++ [c1, c3], ph.outcome⟩ : Hand) := by
    simp [Hand.add_card]
  have hdh2 : (dh.add_card c2).add_card c4
      = (⟨dh.bet, dh.cards ++ [c2, c4], dh.outcome⟩ : Hand) := by
    simp [Hand.add_card]
  rw [hph, hdh2]
  simp only [List.get?_cons_zero]
  by_cases hnp : (⟨ph.bet, ph.cards ++ [c1, c3], ph.outcome⟩ : Hand).is_natural_blackjack = true
  · rw [if_pos hnp]
    by_cases hnd :
        (⟨dh.bet, dh.cards ++ [c2, c4], dh.outcome⟩ : Hand).is_natural_blackjack = true
    · rw [if_pos hnd]
      refine ⟨_, rfl, rfl, fun _ _ => ⟨rfl, rfl, rfl⟩, ?_, ?_, ?_⟩
      · intro _ hcon
        rw [hnd] at hcon
        exact Bool.noConfusion hcon
      · intro hcon _
        rw [hnp] at hcon
        exact Bool.noConfusion hcon
      · intro hcon _
        rw [hnp] at hcon
        exact Bool.noConfusion hcon
    · rw [if_neg hnd]
      refine ⟨_, rfl, rfl, ?_, fun _ _ => ⟨rfl, rfl, rfl⟩, ?_, ?_⟩
      · intro _ hcon
        exact absurd hcon hnd
      · intro hcon _
        rw [hnp] at hcon
        exact Bool.noConfusion hcon
      · intro hcon _
        rw [hnp] at hcon
        exact Bool.noConfusion hcon
  · rw [if_neg hnp]
    by_cases hnd :
        (⟨dh.bet, dh.cards ++ [c2, c4], dh.outcome⟩ : Hand).is_natural_blackjack = true
    · rw [if_pos hnd]
      refine ⟨_, rfl, rfl, ?_, ?_, fun _ _ => ⟨rfl, rfl, rfl⟩, ?_⟩
      · intro hcon _
        exact absurd hcon hnp
      · intro hcon _
        exact absurd hcon hnp
      · intro _ hcon
        rw [hnd] at hcon
        exact Bool.noConfusion hcon
    · rw [if_neg hnd]
      refine ⟨_, rfl, rfl, ?_, ?_, ?_, fun _ _ => ⟨rfl, rfl, rfl⟩⟩
      · intro hcon _
        exact absurd hcon hnp
      · intro hcon _
        exact absurd hcon hnp
      · intro _ hcon
        exact absurd hcon hnd

/-- A `WaitingToDeal` game whose unshuffled shoe will deal the player
{Ten, Nine} and the dealer {Seven, King}: no naturals. -/
def claim4Game : Game :=
  { settings := ⟨"Player1", 1⟩
    shoe := ⟨[⟨Rank.Two, Suit.Spades⟩, ⟨Rank.Two, Suit.Hearts⟩, ⟨Rank.Two, Suit.Diamonds⟩,
              ⟨Rank.Two, Suit.Clubs⟩, ⟨Rank.King, Suit.Diamonds⟩, ⟨Rank.Nine, Suit.Clubs⟩,
              ⟨Rank.Seven, Suit.Hearts⟩, ⟨Rank.Ten, Suit.Hearts⟩], [], 1⟩
    player := ⟨[⟨500, [], none⟩], 9500⟩
    dealer := ⟨[⟨0, [], none⟩], 10000⟩
    state := GameState.WaitingToDeal 500 9500 }

/-- Witness for C4: dealing `claim4Game` (no naturals) enters `PlayerTurn` at
index 0 with the bankroll untouched. -/
theorem claim4_deal_initial_witness :
    ∃ g', claim4Game.deal_initial_cards id = some g' ∧
      g'.player.bank_roll = claim4Game.player.bank_roll ∧
      g'.player.hands
        = [⟨500, [⟨Rank.Ten, Suit.Hearts⟩, ⟨Rank.Nine, Suit.Clubs⟩], none⟩] ∧
      g'.state = GameState.PlayerTurn
        ⟨0, [⟨Rank.Seven, Suit.Hearts⟩, ⟨Rank.King, Suit.Diamonds⟩], none⟩
        g'.player.hands g'.player.bank_roll 0 := by
  obtain ⟨g', hdeal, _, _, _, _, hlast⟩ :=
    claim4_deal_initial id claim4Game
      [⟨Rank.Two, Suit.Spades⟩, ⟨Rank.Two, Suit.Hearts⟩, ⟨Rank.Two, Suit.Diamonds⟩,
       ⟨Rank.Two, Suit.Clubs⟩]
      ⟨Rank.Ten, Suit.Hearts⟩ ⟨Rank.Seven, Suit.Hearts⟩ ⟨Rank.Nine, Suit.Clubs⟩
      ⟨Rank.King, Suit.Diamonds⟩ ⟨500, [], none⟩ ⟨0, [], none⟩ [] [] rfl (by decide) rfl rfl
  obtain ⟨hb, hh, hs⟩ := hlast (by decide) (by decide)
  exact ⟨g', hdeal, hb, hh, hs⟩

/-! ### Dealer policy: claim C8 -/

/-- C8: in `DealerTurn`, each call to `next_dealer_turn` draws exactly one card
when the dealer's best value is ≤ 16 — settling immediately when that card
busts the dealer and otherwise staying in `DealerTurn` — and settles without
drawing when the best value exceeds 16; whenever the call ends in
`RoundComplete` with a non-busted dealer hand, that hand's best value is ≥ 17,
so the dealer never draws while holding 17 or more. -/
theorem claim8_dealer_policy (g : Game) (dh0 : Hand) (phs : List Hand) (b : ℚ)
    (d0 : Hand) (drest : List Hand)
    (hstate : g.state = GameState.DealerTurn dh0 phs b)
    (hdl : g.dealer.hands = d0 :: drest) :
    (∀ L c, g.shoe.cards = L ++ [c] → d0.best_value ≤ 16 →
      ((d0.add_card c).is_busted = true →
        ∃ g', g.next_dealer_turn = some g' ∧
          g'.shoe.cards = L ∧
          g'.dealer.hands = (d0.add_card c) :: drest ∧
          g'.state = GameState.RoundComplete (d0.add_card c)
            (g.player.hands.map (fun hand =>
              { hand with outcome := some (settleOutcome (d0.add_card c) hand) }))
            (g.player.bank_roll
              + (g.player.hands.map (fun hand =>
                  settleCredit (d0.add_card c) hand)).sum)) ∧
      ((d0.add_card c).is_busted = false →
        ∃ g', g.next_dealer_turn = some g' ∧
          g'.shoe.cards = L ∧
          g'.dealer.hands = (d0.add_card c) :: drest ∧
          g'.state = GameState.DealerTurn (d0.add_card c)
            g.player.hands g.player.bank_roll)) ∧
    (16 < d0.best_value →
      ∃ g', g.next_dealer_turn = some g' ∧
        g'.shoe = g.shoe ∧
        g'.dealer = g.dealer ∧
        g'.state = GameState.RoundComplete d0
          (g.player.hands.map (fun hand =>
            { hand with outcome := some (settleOutcome d0 hand) }))
          (g.player.bank_roll
            + (g.player.hands.map (fun hand => settleCredit d0 hand)).sum)) ∧
    (∀ g' dh' phs' b', g.next_dealer_turn = some g' →
      g'.state = GameState.RoundComplete dh' phs' b' →
      dh'.is_busted = false → 17 ≤ dh'.best_value) := by
  refine ⟨?_, ?_, ?_⟩
  · intro L c hc hle
    constructor
    · intro hbust
      unfold Game.next_dealer_turn
      rw [hstate]
      dsimp only
      rw [hdl]
      simp only [List.get?_cons_zero]
      rw [if_pos hle, draw_card_concat g.shoe L c hc]
      dsimp only
      unfold Player.add_card_to_hand
      rw [hdl]
      simp only [List.get?_cons_zero]
      simp only [List.set_cons_zero, List.get?_cons_zero]
      rw [if_pos hbust]
      unfold Game.determine_winner_and_complete_round
      dsimp only
      simp only [List.get?_cons_zero]
      rw [settleHands_spec]
      exact ⟨_, rfl, rfl, rfl, rfl⟩
    · intro hbust
      unfold Game.next_dealer_turn
      rw [hstate]
      dsimp only
      rw [hdl]
      simp only [List.get?_cons_zero]
      rw [if_pos hle, draw_card_concat g.shoe L c hc]
      dsimp only
      unfold Player.add_card_to_hand
      rw [hdl]
      simp only [List.get?_cons_zero]
      simp only [List.set_cons_zero, List.get?_cons_zero]
      rw [if_neg (by rw [hbust]; exact Bool.noConfusion)]
      exact ⟨_, rfl, rfl, rfl, rfl⟩
  · intro hgt
    unfold Game.next_dealer_turn
    rw [hstate]
    dsimp only
    rw [hdl]
    simp only [List.get?_cons_zero]
    rw [if_neg (Nat.not_le.mpr hgt)]
    unfold Game.determine_winner_and_complete_round
    rw [hdl]
    simp only [List.get?_cons_zero]
    rw [settleHands_spec]
    exact ⟨_, rfl, rfl, rfl, rfl⟩
  · intro g' dh' phs' b' hnext hstate' hnb
    by_cases hle : d0.best_value ≤ 16
    · by_cases hnil : g.shoe.cards = []
      · unfold Game.next_dealer_turn at hnext
        rw [hstate] at hnext
        dsimp only at hnext
        rw [hdl] at hnext
        simp only [List.get?_cons_zero] at hnext
        rw [if_pos hle, draw_card_of_nil g.shoe hnil] at hnext
        have hgg : g' = g := (Option.some.inj hnext).symm
        rw [hgg, hstate] at hstate'
        exact GameState.noConfusion hstate'
      · obtain ⟨L, c, hc⟩ := (List.eq_nil_or_concat g.shoe.cards).resolve_left hnil
        rw [List.concat_eq_append] at hc
        unfold Game.next_dealer_turn at hnext
        rw [hstate] at hnext
        dsimp only at hnext
        rw [hdl] at hnext
        simp only [List.get?_cons_zero] at hnext
        rw [if_pos hle, draw_card_concat g.shoe L c hc] at hnext
        dsimp only at hnext
        unfold Player.add_card_to_hand at hnext
        rw [hdl] at hnext
        simp only [List.get?_cons_zero] at hnext
        simp only [List.set_cons_zero, List.get?_cons_zero] at hnext
        by_cases hbust : (d0.add_card c).is_busted = true
        · rw [if_pos hbust] at hnext
          unfold Game.determine_winner_and_complete_round at hnext
          dsimp only at hnext
          simp only [List.get?_cons_zero] at hnext
          have hg' := Option.some.inj hnext
          rw [← hg'] at hstate'
          dsimp only at hstate'
          have hdh' : dh' = d0.add_card c := by
            simp only [GameState.RoundComplete.injEq] at hstate'
            exact hstate'.1.symm
          rw [hdh', hbust] at hnb
          exact Bool.noConfusion hnb
        · rw [if_neg hbust] at hnext
          have hg' := Option.some.inj hnext
          rw [← hg'] at hstate'
          exact GameState.noConfusion hstate'
    · unfold Game.next_dealer_turn at hnext
      rw [hstate] at hnext
      dsimp only at hnext
      rw [hdl] at hnext
      simp only [List.get?_cons_zero] at hnext
      rw [if_neg hle] at hnext
      unfold Game.determine_winner_and_complete_round at hnext
      rw [hdl] at hnext
      simp only [List.get?_cons_zero] at hnext
      have hg' := Option.some.inj hnext
      rw [← hg'] at hstate'
      dsimp only at hstate'
      have hdh' : dh' = d0 := by
        simp only [GameState.RoundComplete.injEq] at hstate'
        exact hstate'.1.symm
      rw [hdh']
      omega

/-- A `DealerTurn` game whose dealer holds {Ten, Seven} (best value 17). -/
def claim8Game : Game :=
  { settings := ⟨"Player1", 1⟩
    shoe := Shoe.new 1
    player := ⟨[⟨100, [⟨Rank.Ten, Suit.Spades⟩, ⟨Rank.Nine, Suit.Clubs⟩], none⟩], 9900⟩
    dealer := ⟨[⟨0, [⟨Rank.Ten, Suit.Hearts⟩, ⟨Rank.Seven, Suit.Hearts⟩], none⟩], 10000⟩
    state := GameState.DealerTurn
      ⟨0, [⟨Rank.Ten, Suit.Hearts⟩, ⟨Rank.Seven, Suit.Hearts⟩], none⟩
      [⟨100, [⟨Rank.Ten, Suit.Spades⟩, ⟨Rank.Nine, Suit.Clubs⟩], none⟩] 9900 }

/-- Witness for C8: with 17 the dealer settles without drawing. -/
theorem claim8_dealer_policy_witness :
    ∃ g', claim8Game.next_dealer_turn = some g' ∧
      g'.shoe = claim8Game.shoe ∧
      g'.dealer = claim8Game.dealer ∧
      g'.state = GameState.RoundComplete
        ⟨0, [⟨Rank.Ten, Suit.Hearts⟩, ⟨Rank.Seven, Suit.Hearts⟩], none⟩
        (claim8Game.player.hands.map (fun hand =>
          { hand with outcome := some (settleOutcome
              ⟨0, [⟨Rank.Ten, Suit.Hearts⟩, ⟨Rank.Seven, Suit.Hearts⟩], none⟩ hand) }))
        (claim8Game.player.bank_roll
          + (claim8Game.player.hands.map (fun hand => settleCredit
              ⟨0, [⟨Rank.Ten, Suit.Hearts⟩, ⟨Rank.Seven, Suit.Hearts⟩], none⟩ hand)).sum) :=
  ((claim8_dealer_policy claim8Game
      ⟨0, [⟨Rank.Ten, Suit.Hearts⟩, ⟨Rank.Seven, Suit.Hearts⟩], none⟩
      [⟨100, [⟨Rank.Ten, Suit.Spades⟩, ⟨Rank.Nine, Suit.Clubs⟩], none⟩] 9900
      ⟨0, [⟨Rank.Ten, Suit.Hearts⟩, ⟨Rank.Seven, Suit.Hearts⟩], none⟩ [] rfl rfl).2.1)
    (by decide)

/-- Witness for C6 (amended): the Ace-free hand {Five, Seven} has the
single-element value list [12]. -/
theorem claim6_possible_values_spec_witness :
    (⟨0, [⟨Rank.Five, Suit.Spades⟩, ⟨Rank.Seven, Suit.Clubs⟩], none⟩ : Hand).possible_values
      = [12] :=
  (claim6_possible_values_spec
    ⟨0, [⟨Rank.Five, Suit.Spades⟩, ⟨Rank.Seven, Suit.Clubs⟩], none⟩).2.2.2.1 (by decide)

/-- Witness for C10 at the empty hand. -/
theorem claim10_possible_values_total_witness :
    Hand.new.possible_values ≠ [] ∧
    Hand.new.possible_values = [0] ∧
    Hand.new.best_value = 0 ∧
    Hand.new.is_busted = false ∧
    Hand.new.is_blackjack = false :=
  claim10_possible_values_total Hand.new

end Blackjack
